import Mathlib

/-!
# Verification of the trend-finder record extractor and report sink

This file shallowly embeds the text-processing core of
`src/printify_trend_finder.py` — the `extract_opportunities` record
extractor and the effectful skeleton of `save_to_sheets` — and proves the
specification's claims about them.

Text is modelled as `List Char` (converted from `String` at the top-level
entry points).  Python string primitives used by the source
(`in`, `split`, `strip`, `startswith`, `int(...)`) are each given an
executable model below.  Exceptions are modelled with `Except`: a second
copy of the extractor threads the one fallible operation (`int(...)`)
through `Except`, and we prove it always returns `Except.ok`.
-/

set_option maxRecDepth 8000

namespace TrendFinder

/-- ASCII whitespace as stripped by Python's `str.strip()`. -/
def pySpace (c : Char) : Bool :=
  c == ' ' || c == '\t' || c == '\n' || c == '\r' || c == '\x0b' || c == '\x0c'

/-- Models Python `s.strip()`: drop whitespace from both ends. -/
def trimL (s : List Char) : List Char :=
  ((s.dropWhile pySpace).reverse.dropWhile pySpace).reverse

/-- If `p` is a leading run of `s`, return the remainder of `s` after `p`. -/
def stripPre : List Char → List Char → Option (List Char)
  | [], s => some s
  | _ :: _, [] => none
  | p :: ps, c :: cs => if p == c then stripPre ps cs else none

/-- Models the Python substring test `pat in s`. -/
def pyIn (pat : List Char) : List Char → Bool
  | [] => (stripPre pat []).isSome
  | c :: cs => (stripPre pat (c :: cs)).isSome || pyIn pat cs

/-- Models Python `s.startswith(p)`. -/
def startsWithL (p s : List Char) : Bool := (stripPre p s).isSome

/-- Fuel-indexed worker for `pySplit`.  Fuel `s.length` always suffices for a
nonempty separator (each step consumes at least one character), so the
fuel-exhaustion fallback `[s]` is never reached from `pySplit`. -/
def splitOnFuel (sep : List Char) : Nat → List Char → List (List Char)
  | 0, s => [s]
  | fuel + 1, s =>
    match s with
    | [] => [[]]
    | c :: cs =>
      match stripPre sep (c :: cs) with
      | some rest => [] :: splitOnFuel sep fuel rest
      | none =>
        match splitOnFuel sep fuel cs with
        | [] => [[c]]
        | hd :: tl => (c :: hd) :: tl

/-- Models Python `s.split(sep)`: split on every non-overlapping occurrence of
`sep`, scanning left to right, keeping empty parts.  The source only ever
passes nonempty separators (Python raises on an empty one). -/
def pySplit (s sep : List Char) : List (List Char) :=
  if sep.isEmpty then [s] else splitOnFuel sep s.length s

/-- Decimal digits with single underscores allowed between digits, continuing
an accumulator — the tail of a Python integer literal accepted by `int`. -/
def pyDigitsGo : List Char → Nat → Option Nat
  | [], acc => some acc
  | '_' :: rest, acc =>
    match rest with
    | [] => none
    | c :: rest' => if c.isDigit then pyDigitsGo rest' (acc * 10 + (c.toNat - 48)) else none
  | c :: rest, acc => if c.isDigit then pyDigitsGo rest (acc * 10 + (c.toNat - 48)) else none

/-- A nonempty run of decimal digits with single underscores between digits. -/
def pyDigits : List Char → Option Nat
  | [] => none
  | '_' :: _ => none
  | c :: rest => if c.isDigit then pyDigitsGo rest (c.toNat - 48) else none

/-- Models Python `int(s)` on ASCII numerals: optional surrounding whitespace,
an optional sign, then decimal digits (single underscores permitted between
digits).  `none` models Python raising `ValueError`. -/
def pyInt (s : List Char) : Option Int :=
  match trimL s with
  | '+' :: rest => (pyDigits rest).map (fun n => (n : Int))
  | '-' :: rest => (pyDigits rest).map (fun n => -(n : Int))
  | t => (pyDigits t).map (fun n => (n : Int))

/-- `int(...)` with Python's exception made explicit. -/
def pyIntE (s : List Char) : Except (List Char) Int :=
  match pyInt s with
  | some n => Except.ok n
  | none => Except.error "ValueError".toList

/-- The ten field labels recognised by `extract_opportunities`. -/
def nicheNameLabel : List Char := "NICHE NAME:".toList

def targetAudienceLabel : List Char := "TARGET AUDIENCE:".toList

def designThemeLabel : List Char := "DESIGN THEME:".toList

def productsLabel : List Char := "PRODUCTS:".toList

def demandScoreLabel : List Char := "DEMAND SCORE:".toList

def competitionLabel : List Char := "COMPETITION:".toList

def designExamplesLabel : List Char := "DESIGN EXAMPLES:".toList

def whyItWorksLabel : List Char := "WHY IT WORKS:".toList

def adAngleLabel : List Char := "FACEBOOK AD ANGLE:".toList

def estRevenueLabel : List Char := "ESTIMATED MONTHLY REVENUE:".toList

/-- All ten labels, in the order of the source's `elif` chain. -/
def fieldLabels : List (List Char) :=
  [nicheNameLabel, targetAudienceLabel, designThemeLabel, productsLabel,
   demandScoreLabel, competitionLabel, designExamplesLabel, whyItWorksLabel,
   adAngleLabel, estRevenueLabel]

/-- The blank-line section separator `'\n\n'` of `analysis_text.split`. -/
def sectionSep : List Char := "\n\n".toList

/-- The line separator used by the `[...].split('\n')[0]` idioms. -/
def newlineSep : List Char := "\n".toList

/-- The `'/'` separator of the demand-score parse. -/
def slashSep : List Char := "/".toList

/-- One opportunity record: the dict built up by `extract_opportunities`.
`none` models a key absent from the Python dict. -/
structure Opp where
  niche : Option (List Char) := none
  audience : Option (List Char) := none
  design_theme : Option (List Char) := none
  products : Option (List Char) := none
  demand_score : Option Int := none
  competition : Option (List Char) := none
  design_examples : Option (List Char) := none
  why_works : Option (List Char) := none
  ad_angle : Option (List Char) := none
  est_revenue : Option (List Char) := none
deriving DecidableEq, Repr

/-- The empty dict `{}` that initialises and resets `current_opp`. -/
def emptyOpp : Opp := {}

/-- Python dict truthiness of `current_opp`: `false` iff some key is set
(keys are only ever added, never deleted). -/
def Opp.isEmptyDict (o : Opp) : Bool :=
  o.niche.isNone && o.audience.isNone && o.design_theme.isNone &&
  o.products.isNone && o.demand_score.isNone && o.competition.isNone &&
  o.design_examples.isNone && o.why_works.isNone && o.ad_angle.isNone &&
  o.est_revenue.isNone

/-- `section.split(label)[1]`: the text after the first occurrence of `label`
(up to its next occurrence, or the end of the section). -/
def afterLabel (label sec : List Char) : List Char := (pySplit sec label).getD 1 []

/-- `t.split('\n')[0]`: the text up to the first line break. -/
def firstLine (t : List Char) : List Char := (pySplit t newlineSep).getD 0 []

/-- `section.split(label)[1].split('\n')[0].strip()` — a single-line field. -/
def fieldLine (label sec : List Char) : List Char := trimL (firstLine (afterLabel label sec))

/-- `section.split(label)[1].split(stop)[0].strip()` — a field running to the
next recognised label `stop` (or the end of the section). -/
def spanField (label stop sec : List Char) : List Char :=
  trimL ((pySplit (afterLabel label sec) stop).getD 0 [])

/-- `score_text` of the demand-score branch:
`section.split('DEMAND SCORE:')[1].split('\n')[0].strip()`. -/
def scoreText (sec : List Char) : List Char := fieldLine demandScoreLabel sec

/-- `int(score_text.split('/')[0].strip())` with the `try/except` default 5. -/
def parseDemand (score_text : List Char) : Int :=
  (pyInt (trimL ((pySplit score_text slashSep).getD 0 []))).getD 5

/-- The demand-score parse with the `int(...)` exception explicit; the
`except` arm catches every error and yields the default 5. -/
def parseDemandE (score_text : List Char) : Except (List Char) Int :=
  match pyIntE (trimL ((pySplit score_text slashSep).getD 0 []))  with
  | Except.ok n => Except.ok n
  | Except.error _ => Except.ok 5

/-- The record-boundary test of the source:
`'NICHE NAME:' in section or section.strip().startswith('1.') or
section.strip().startswith('2.')`. -/
def isBoundary (sec : List Char) : Bool :=
  pyIn nicheNameLabel sec || startsWithL "1.".toList (trimL sec) ||
  startsWithL "2.".toList (trimL sec)

/-- The field-extraction `if/elif` chain applied to one section: at most one
field of `cur` is updated, the first (in the source's order) whose label
occurs in the section. -/
def stepSection (sec : List Char) (cur : Opp) : Opp :=
  if pyIn nicheNameLabel sec then
    { cur with niche := some (fieldLine nicheNameLabel sec) }
  else if pyIn targetAudienceLabel sec then
    { cur with audience := some (fieldLine targetAudienceLabel sec) }
  else if pyIn designThemeLabel sec then
    { cur with design_theme := some (fieldLine designThemeLabel sec) }
  else if pyIn productsLabel sec then
    { cur with products := some (fieldLine productsLabel sec) }
  else if pyIn demandScoreLabel sec then
    { cur with demand_score := some (parseDemand (scoreText sec)) }
  else if pyIn competitionLabel sec then
    { cur with competition := some (fieldLine competitionLabel sec) }
  else if pyIn designExamplesLabel sec then
    { cur with design_examples := some (spanField designExamplesLabel whyItWorksLabel sec) }
  else if pyIn whyItWorksLabel sec then
    { cur with why_works := some (spanField whyItWorksLabel adAngleLabel sec) }
  else if pyIn adAngleLabel sec then
    { cur with ad_angle := some (spanField adAngleLabel estRevenueLabel sec) }
  else if pyIn estRevenueLabel sec then
    { cur with est_revenue := some (trimL (afterLabel estRevenueLabel sec)) }
  else cur

/-- The `for section in sections` loop of `extract_opportunities`, including
the final `if current_opp: opportunities.append(current_opp)`. -/
def extractLoop : List (List Char) → Opp → List Opp
  | [], cur => if cur.isEmptyDict then [] else [cur]
  | sec :: rest, cur =>
    if isBoundary sec && !cur.isEmptyDict then
      cur :: extractLoop rest (stepSection sec emptyOpp)
    else
      extractLoop rest (stepSection sec cur)

/-- `extract_opportunities(analysis_text)`: split on blank lines and run the
accumulator loop. -/
def extract_opportunities (analysis_text : String) : List Opp :=
  extractLoop (pySplit analysis_text.toList sectionSep) emptyOpp

/-- `stepSection` with the `int(...)` exception threaded through `Except`
(every other operation of the chain is exception-free in Python). -/
def stepSectionE (sec : List Char) (cur : Opp) : Except (List Char) Opp :=
  if pyIn nicheNameLabel sec then
    Except.ok { cur with niche := some (fieldLine nicheNameLabel sec) }
  else if pyIn targetAudienceLabel sec then
    Except.ok { cur with audience := some (fieldLine targetAudienceLabel sec) }
  else if pyIn designThemeLabel sec then
    Except.ok { cur with design_theme := some (fieldLine designThemeLabel sec) }
  else if pyIn productsLabel sec then
    Except.ok { cur with products := some (fieldLine productsLabel sec) }
  else if pyIn demandScoreLabel sec then
    match parseDemandE (scoreText sec) with
    | Except.ok n => Except.ok { cur with demand_score := some n }
    | Except.error e => Except.error e
  else if pyIn competitionLabel sec then
    Except.ok { cur with competition := some (fieldLine competitionLabel sec) }
  else if pyIn designExamplesLabel sec then
    Except.ok { cur with design_examples := some (spanField designExamplesLabel whyItWorksLabel sec) }
  else if pyIn whyItWorksLabel sec then
    Except.ok { cur with why_works := some (spanField whyItWorksLabel adAngleLabel sec) }
  else if pyIn adAngleLabel sec then
    Except.ok { cur with ad_angle := some (spanField adAngleLabel estRevenueLabel sec) }
  else if pyIn estRevenueLabel sec then
    Except.ok { cur with est_revenue := some (trimL (afterLabel estRevenueLabel sec)) }
  else Except.ok cur

/-- The extraction loop with exceptions threaded through `Except`: an
uncaught exception anywhere in the loop would abort the whole extraction. -/
def extractLoopE : List (List Char) → Opp → Except (List Char) (List Opp)
  | [], cur => Except.ok (if cur.isEmptyDict then [] else [cur])
  | sec :: rest, cur =>
    if isBoundary sec && !cur.isEmptyDict then
      match stepSectionE sec emptyOpp with
      | Except.ok cur' => (extractLoopE rest cur').map (fun l => cur :: l)
      | Except.error e => Except.error e
    else
      match stepSectionE sec cur with
      | Except.ok cur' => extractLoopE rest cur'
      | Except.error e => Except.error e

/-- `extract_opportunities` with exceptions explicit. -/
def extract_opportunitiesE (analysis_text : String) : Except (List Char) (List Opp) :=
  extractLoopE (pySplit analysis_text.toList sectionSep) emptyOpp

/-- The number of record boundaries at which a non-empty accumulator is
pushed, including the final flush — the reference count for the length of the
extractor's output. -/
def countRecords : List (List Char) → Opp → Nat
  | [], cur => if cur.isEmptyDict then 0 else 1
  | sec :: rest, cur =>
    if isBoundary sec && !cur.isEmptyDict then
      1 + countRecords rest (stepSection sec emptyOpp)
    else
      countRecords rest (stepSection sec cur)

/-- One cell of a spreadsheet row (`save_to_sheets` mixes strings with the
integer demand score). -/
inductive Cell where
  | str (v : List Char)
  | int (v : Int)
deriving DecidableEq, Repr

/-- The 13-column row built for one opportunity in `save_to_sheets`,
with `datetime.now()` passed in as `now`. -/
def oppRow (now : List Char) (opp : Opp) : List Cell :=
  [Cell.str now,
   Cell.str (opp.niche.getD []),
   Cell.str (opp.audience.getD []),
   Cell.str (opp.design_theme.getD []),
   Cell.str (opp.products.getD []),
   Cell.int (opp.demand_score.getD 5),
   Cell.str (opp.competition.getD "Medium".toList),
   Cell.str (opp.design_examples.getD []),
   Cell.str (opp.why_works.getD []),
   Cell.str (opp.ad_angle.getD []),
   Cell.str (opp.est_revenue.getD []),
   Cell.str "Not started".toList,
   Cell.str []]

/-- One `spreadsheets().values().append(...)` call: its target range and the
rows it carries. -/
structure AppendCall where
  range : List Char
  values : List (List Cell)
deriving DecidableEq, Repr

/-- The per-opportunity range `'Opportunities!A:M'`. -/
def oppsRange : List Char := "Opportunities!A:M".toList

/-- The raw-analysis audit range `'Analysis!A:B'`. -/
def analysisRange : List Char := "Analysis!A:B".toList

/-- `save_to_sheets(opportunities, raw_analysis)` as the sequence of append
calls it performs.  `sheet_id` and `opportunities` are tested for Python
truthiness (`if not self.sheet_id or not opportunities: return`).  The
external `execute()` of the first append may raise; `firstAppendOk = false`
models that failure, in which case the `except` clause catches it after the
first call has been issued and before the audit append is reached. -/
def save_to_sheets (sheet_id : List Char) (opportunities : List Opp)
    (raw_analysis : List Char) (now : List Char) (firstAppendOk : Bool) :
    List AppendCall :=
  if sheet_id.isEmpty || opportunities.isEmpty then []
  else
    let firstCall : AppendCall := ⟨oppsRange, opportunities.map (oppRow now)⟩
    if firstAppendOk then
      [firstCall, ⟨analysisRange, [[Cell.str now, Cell.str raw_analysis]]⟩]
    else
      [firstCall]

end TrendFinder

namespace TrendFinder

/-! ## Helper lemmas about the string primitives -/

/-- A successful `stripPre` witnesses a prefix decomposition. -/
theorem stripPre_eq (p : List Char) : ∀ s r, stripPre p s = some r → p ++ r = s := by
  induction p with
  | nil =>
    intro s r h
    simp [stripPre] at h
    simp [h]
  | cons p ps ih =>
    intro s r h
    cases s with
    | nil => simp [stripPre] at h
    | cons c cs =>
      simp only [stripPre] at h
      by_cases hpc : (p == c) = true
      · rw [if_pos hpc] at h
        have hp : p = c := beq_iff_eq.mp hpc
        subst hp
        have := ih cs r h
        simp [this]
      · rw [if_neg hpc] at h
        exact absurd h (by simp)

/-- Matching a prefix survives extending the text on the right. -/
theorem stripPre_append (p : List Char) : ∀ t v, (stripPre p t).isSome = true →
    (stripPre p (t ++ v)).isSome = true := by
  induction p with
  | nil => intro t v _; simp [stripPre]
  | cons p ps ih =>
    intro t v h
    cases t with
    | nil => simp [stripPre] at h
    | cons c cs =>
      by_cases hpc : (p == c) = true
      · simp only [List.cons_append, stripPre, if_pos hpc] at h ⊢
        exact ih cs v h
      · simp only [stripPre, if_neg hpc] at h
        simp at h

/-- The empty pattern occurs in every text. -/
theorem pyIn_nil_pat : ∀ s, pyIn ([] : List Char) s = true := by
  intro s
  cases s with
  | nil => simp [pyIn, stripPre]
  | cons c cs => simp [pyIn, stripPre]

/-- Occurrence survives prepending text. -/
theorem pyIn_append_left (pat : List Char) : ∀ u t, pyIn pat t = true →
    pyIn pat (u ++ t) = true := by
  intro u
  induction u with
  | nil => intro t h; simpa using h
  | cons c cs ih =>
    intro t h
    have := ih t h
    simp [pyIn, this]

/-- Occurrence survives appending text. -/
theorem pyIn_append_right (pat : List Char) : ∀ t v, pyIn pat t = true →
    pyIn pat (t ++ v) = true := by
  intro t
  induction t with
  | nil =>
    intro v h
    cases pat with
    | nil => simpa using pyIn_nil_pat v
    | cons p ps => simp [pyIn, stripPre] at h
  | cons c cs ih =>
    intro v h
    simp only [pyIn, Bool.or_eq_true] at h
    rcases h with h | h
    · simp only [List.cons_append, pyIn, Bool.or_eq_true]
      exact Or.inl (stripPre_append pat (c :: cs) v h)
    · simp only [List.cons_append, pyIn, Bool.or_eq_true]
      exact Or.inr (ih v h)

/-- Occurrence in a middle piece gives occurrence in the whole text. -/
theorem pyIn_of_mid (pat part u v s : List Char) (hs : u ++ part ++ v = s)
    (h : pyIn pat part = true) : pyIn pat s = true := by
  subst hs
  rw [List.append_assoc]
  exact pyIn_append_left pat u (part ++ v) (pyIn_append_right pat part v h)

/-- Every part returned by `splitOnFuel` is a contiguous piece of the input:
the head is a prefix, every later part a middle piece. -/
theorem splitOnFuel_parts (sep : List Char) :
    ∀ (fuel : Nat) (s : List Char),
      ∃ hd tl, splitOnFuel sep fuel s = hd :: tl ∧ (∃ v, hd ++ v = s) ∧
        ∀ part ∈ tl, ∃ u v, u ++ part ++ v = s := by
  intro fuel
  induction fuel with
  | zero =>
    intro s
    exact ⟨s, [], rfl, ⟨[], by simp⟩, by simp⟩
  | succ fuel ih =>
    intro s
    cases s with
    | nil => exact ⟨[], [], by simp [splitOnFuel], ⟨[], rfl⟩, by simp⟩
    | cons c cs =>
      cases hsp : stripPre sep (c :: cs) with
      | some rest =>
        have hsep : sep ++ rest = c :: cs := stripPre_eq sep (c :: cs) rest hsp
        refine ⟨[], splitOnFuel sep fuel rest, by simp [splitOnFuel, hsp], ⟨c :: cs, rfl⟩, ?_⟩
        intro part hp
        obtain ⟨hd, tl, heq, ⟨v, hv⟩, htl⟩ := ih rest
        rw [heq] at hp
        rcases List.mem_cons.mp hp with rfl | hp'
        · exact ⟨sep, v, by rw [List.append_assoc, hv, hsep]⟩
        · obtain ⟨u, v', huv⟩ := htl part hp'
          exact ⟨sep ++ u, v', by rw [List.append_assoc, List.append_assoc, ← List.append_assoc u,
            huv, hsep]⟩
      | none =>
        obtain ⟨hd, tl, heq, ⟨v, hv⟩, htl⟩ := ih cs
        refine ⟨c :: hd, tl, by simp [splitOnFuel, hsp, heq], ⟨v, by simp [hv]⟩, ?_⟩
        intro part hp
        obtain ⟨u, v', huv⟩ := htl part hp
        exact ⟨c :: u, v', by simp [huv]⟩

/-- Every part of `pySplit s sep` is a contiguous piece of `s`. -/
theorem pySplit_parts (s sep part : List Char) (h : part ∈ pySplit s sep) :
    ∃ u v, u ++ part ++ v = s := by
  unfold pySplit at h
  by_cases hsep : sep.isEmpty = true
  · rw [if_pos hsep] at h
    simp at h
    exact ⟨[], [], by simp [h]⟩
  · rw [if_neg hsep] at h
    obtain ⟨hd, tl, heq, ⟨v, hv⟩, htl⟩ := splitOnFuel_parts sep s.length s
    rw [heq] at h
    rcases List.mem_cons.mp h with rfl | h'
    · exact ⟨[], v, by simp [hv]⟩
    · exact htl part h'

/-- A pattern occurring in some part of the split occurs in the whole text. -/
theorem pyIn_of_pySplit (pat s sep part : List Char) (hin : part ∈ pySplit s sep)
    (h : pyIn pat part = true) : pyIn pat s = true := by
  obtain ⟨u, v, huv⟩ := pySplit_parts s sep part hin
  exact pyIn_of_mid pat part u v s huv h

end TrendFinder

namespace TrendFinder

/-! ## Lemmas about the extraction loop -/

/-- The empty dict is dict-empty. -/
theorem emptyOpp_isEmptyDict : emptyOpp.isEmptyDict = true := rfl

/-- A section containing none of the ten labels leaves the accumulator
untouched: every branch of the `elif` chain is skipped. -/
theorem stepSection_of_no_labels (sec : List Char) (cur : Opp)
    (h : ∀ l ∈ fieldLabels, pyIn l sec = false) : stepSection sec cur = cur := by
  have h1 := h nicheNameLabel (by simp [fieldLabels])
  have h2 := h targetAudienceLabel (by simp [fieldLabels])
  have h3 := h designThemeLabel (by simp [fieldLabels])
  have h4 := h productsLabel (by simp [fieldLabels])
  have h5 := h demandScoreLabel (by simp [fieldLabels])
  have h6 := h competitionLabel (by simp [fieldLabels])
  have h7 := h designExamplesLabel (by simp [fieldLabels])
  have h8 := h whyItWorksLabel (by simp [fieldLabels])
  have h9 := h adAngleLabel (by simp [fieldLabels])
  have h10 := h estRevenueLabel (by simp [fieldLabels])
  simp [stepSection, h1, h2, h3, h4, h5, h6, h7, h8, h9, h10]

/-- With an empty accumulator and label-free sections, the loop emits
nothing. -/
theorem extractLoop_of_no_labels (secs : List (List Char))
    (h : ∀ sec ∈ secs, ∀ l ∈ fieldLabels, pyIn l sec = false) :
    extractLoop secs emptyOpp = [] := by
  induction secs with
  | nil => simp [extractLoop, emptyOpp_isEmptyDict]
  | cons sec rest ih =>
    have hstep : stepSection sec emptyOpp = emptyOpp :=
      stepSection_of_no_labels sec emptyOpp (h sec (by simp))
    have hrest : ∀ s ∈ rest, ∀ l ∈ fieldLabels, pyIn l s = false :=
      fun s hs => h s (by simp [hs])
    simp [extractLoop, emptyOpp_isEmptyDict, hstep, ih hrest]

/-- Every record the loop emits is dict-nonempty: a push is guarded by the
truthiness test on `current_opp`, and so is the final flush. -/
theorem extractLoop_mem_nonempty (secs : List (List Char)) : ∀ (cur r : Opp),
    r ∈ extractLoop secs cur → r.isEmptyDict = false := by
  induction secs with
  | nil =>
    intro cur r hr
    unfold extractLoop at hr
    by_cases hc : cur.isEmptyDict = true
    · simp [hc] at hr
    · rw [if_neg (by simpa using hc)] at hr
      rcases List.mem_singleton.mp hr with rfl
      exact Bool.not_eq_true _ ▸ (by simpa using hc)
  | cons sec rest ih =>
    intro cur r hr
    unfold extractLoop at hr
    by_cases hc : (isBoundary sec && !cur.isEmptyDict) = true
    · rw [if_pos hc] at hr
      rcases List.mem_cons.mp hr with rfl | hr'
      · have := (Bool.and_eq_true _ _).mp hc |>.2
        simpa using this
      · exact ih _ _ hr'
    · rw [if_neg hc] at hr
      exact ih _ _ hr

/-- Boundary-free sections are folded into the accumulator without any
push: the loop commutes with `List.foldl` over such a prefix. -/
theorem extractLoop_append_of_no_boundary (pre : List (List Char)) :
    ∀ (rest : List (List Char)) (cur : Opp), (∀ sec ∈ pre, isBoundary sec = false) →
    extractLoop (pre ++ rest) cur =
      extractLoop rest (List.foldl (fun c sec => stepSection sec c) cur pre) := by
  induction pre with
  | nil => intro rest cur _; rfl
  | cons sec pre ih =>
    intro rest cur h
    have hb : isBoundary sec = false := h sec (by simp)
    have hrec := ih rest (stepSection sec cur) (fun s hs => h s (by simp [hs]))
    simp only [List.cons_append, extractLoop, hb, Bool.false_and, if_neg (by simp : ¬(false = true)),
      List.foldl_cons]
    exact hrec

/-- The loop's output length is the boundary-with-content count. -/
theorem extractLoop_length (secs : List (List Char)) : ∀ cur : Opp,
    (extractLoop secs cur).length = countRecords secs cur := by
  induction secs with
  | nil =>
    intro cur
    unfold extractLoop countRecords
    by_cases hc : cur.isEmptyDict = true <;> simp [hc]
  | cons sec rest ih =>
    intro cur
    unfold extractLoop countRecords
    by_cases hc : (isBoundary sec && !cur.isEmptyDict) = true
    · simp [hc, ih]
      omega
    · simp [hc, ih]

/-! ## The exception-threaded extractor never raises -/

/-- The `try/except` around `int(...)` catches the only exception of the
demand-score parse. -/
theorem parseDemandE_ok (t : List Char) : parseDemandE t = Except.ok (parseDemand t) := by
  unfold parseDemandE parseDemand pyIntE
  cases h : pyInt (trimL ((pySplit t slashSep).getD 0 [])) <;> simp [h]

/-- The field-extraction chain never lets an exception escape. -/
theorem stepSectionE_ok (sec : List Char) (cur : Opp) :
    stepSectionE sec cur = Except.ok (stepSection sec cur) := by
  unfold stepSectionE stepSection
  rw [parseDemandE_ok]
  by_cases h1 : pyIn nicheNameLabel sec = true
  · simp only [if_pos h1]
  · simp only [if_neg h1]
    by_cases h2 : pyIn targetAudienceLabel sec = true
    · simp only [if_pos h2]
    · simp only [if_neg h2]
      by_cases h3 : pyIn designThemeLabel sec = true
      · simp only [if_pos h3]
      · simp only [if_neg h3]
        by_cases h4 : pyIn productsLabel sec = true
        · simp only [if_pos h4]
        · simp only [if_neg h4]
          by_cases h5 : pyIn demandScoreLabel sec = true
          · simp only [if_pos h5]
          · simp only [if_neg h5]
            by_cases h6 : pyIn competitionLabel sec = true
            · simp only [if_pos h6]
            · simp only [if_neg h6]
              by_cases h7 : pyIn designExamplesLabel sec = true
              · simp only [if_pos h7]
              · simp only [if_neg h7]
                by_cases h8 : pyIn whyItWorksLabel sec = true
                · simp only [if_pos h8]
                · simp only [if_neg h8]
                  by_cases h9 : pyIn adAngleLabel sec = true
                  · simp only [if_pos h9]
                  · simp only [if_neg h9]
                    by_cases h10 : pyIn estRevenueLabel sec = true
                    · simp only [if_pos h10]
                    · simp only [if_neg h10]

/-- The whole extraction loop never lets an exception escape. -/
theorem extractLoopE_ok (secs : List (List Char)) : ∀ cur : Opp,
    extractLoopE secs cur = Except.ok (extractLoop secs cur) := by
  induction secs with
  | nil => intro cur; rfl
  | cons sec rest ih =>
    intro cur
    unfold extractLoopE extractLoop
    by_cases hc : (isBoundary sec && !cur.isEmptyDict) = true <;>
      simp [hc, stepSectionE_ok, ih, Except.map]

end TrendFinder

namespace TrendFinder

/-! ## Claim theorems -/

/-- C1 counterexample: the section `"NICHE NAME: A\nTARGET AUDIENCE: B"`
contains both the niche and the audience labels, yet the extracted record
carries only the niche — the audience field is absent, refuting the claim
that a single section containing several recognised labels contributes all
of the corresponding fields. -/
theorem c1_counterexample :
    pyIn targetAudienceLabel ("NICHE NAME: A\nTARGET AUDIENCE: B").toList = true ∧
    (extract_opportunities "NICHE NAME: A\nTARGET AUDIENCE: B").map Opp.niche =
      [some "A".toList] ∧
    (extract_opportunities "NICHE NAME: A\nTARGET AUDIENCE: B").map Opp.audience =
      [none] := by
  refine ⟨by decide, by decide, by decide⟩

/-- C1 (amended): the field labels are scanned as an `if/elif` chain in a
fixed priority order, so a section contributes at most one field — the first
label of the chain that occurs in it — updating exactly that field of the
accumulator and leaving every other field unchanged, regardless of which
other labels also appear in that section; a section containing none of the
ten labels contributes nothing.  One conjunct per position of the chain. -/
theorem c1_first_label_wins :
    (∀ (sec : List Char) (cur : Opp), pyIn nicheNameLabel sec = true →
      stepSection sec cur = { cur with niche := some (fieldLine nicheNameLabel sec) }) ∧
    (∀ (sec : List Char) (cur : Opp), pyIn nicheNameLabel sec = false →
      pyIn targetAudienceLabel sec = true →
      stepSection sec cur =
        { cur with audience := some (fieldLine targetAudienceLabel sec) }) ∧
    (∀ (sec : List Char) (cur : Opp), pyIn nicheNameLabel sec = false →
      pyIn targetAudienceLabel sec = false → pyIn designThemeLabel sec = true →
      stepSection sec cur =
        { cur with design_theme := some (fieldLine designThemeLabel sec) }) ∧
    (∀ (sec : List Char) (cur : Opp), pyIn nicheNameLabel sec = false →
      pyIn targetAudienceLabel sec = false → pyIn designThemeLabel sec = false →
      pyIn productsLabel sec = true →
      stepSection sec cur = { cur with products := some (fieldLine productsLabel sec) }) ∧
    (∀ (sec : List Char) (cur : Opp), pyIn nicheNameLabel sec = false →
      pyIn targetAudienceLabel sec = false → pyIn designThemeLabel sec = false →
      pyIn productsLabel sec = false → pyIn demandScoreLabel sec = true →
      stepSection sec cur =
        { cur with demand_score := some (parseDemand (scoreText sec)) }) ∧
    (∀ (sec : List Char) (cur : Opp), pyIn nicheNameLabel sec = false →
      pyIn targetAudienceLabel sec = false → pyIn designThemeLabel sec = false →
      pyIn productsLabel sec = false → pyIn demandScoreLabel sec = false →
      pyIn competitionLabel sec = true →
      stepSection sec cur =
        { cur with competition := some (fieldLine competitionLabel sec) }) ∧
    (∀ (sec : List Char) (cur : Opp), pyIn nicheNameLabel sec = false →
      pyIn targetAudienceLabel sec = false → pyIn designThemeLabel sec = false →
      pyIn productsLabel sec = false → pyIn demandScoreLabel sec = false →
      pyIn competitionLabel sec = false → pyIn designExamplesLabel sec = true →
      stepSection sec cur =
        { cur with design_examples := some (spanField designExamplesLabel whyItWorksLabel sec) }) ∧
    (∀ (sec : List Char) (cur : Opp), pyIn nicheNameLabel sec = false →
      pyIn targetAudienceLabel sec = false → pyIn designThemeLabel sec = false →
      pyIn productsLabel sec = false → pyIn demandScoreLabel sec = false →
      pyIn competitionLabel sec = false → pyIn designExamplesLabel sec = false →
      pyIn whyItWorksLabel sec = true →
      stepSection sec cur =
        { cur with why_works := some (spanField whyItWorksLabel adAngleLabel sec) }) ∧
    (∀ (sec : List Char) (cur : Opp), pyIn nicheNameLabel sec = false →
      pyIn targetAudienceLabel sec = false → pyIn designThemeLabel sec = false →
      pyIn productsLabel sec = false → pyIn demandScoreLabel sec = false →
      pyIn competitionLabel sec = false → pyIn designExamplesLabel sec = false →
      pyIn whyItWorksLabel sec = false → pyIn adAngleLabel sec = true →
      stepSection sec cur =
        { cur with ad_angle := some (spanField adAngleLabel estRevenueLabel sec) }) ∧
    (∀ (sec : List Char) (cur : Opp), pyIn nicheNameLabel sec = false →
      pyIn targetAudienceLabel sec = false → pyIn designThemeLabel sec = false →
      pyIn productsLabel sec = false → pyIn demandScoreLabel sec = false →
      pyIn competitionLabel sec = false → pyIn designExamplesLabel sec = false →
      pyIn whyItWorksLabel sec = false → pyIn adAngleLabel sec = false →
      pyIn estRevenueLabel sec = true →
      stepSection sec cur =
        { cur with est_revenue := some (trimL (afterLabel estRevenueLabel sec)) }) ∧
    (∀ (sec : List Char) (cur : Opp), (∀ l ∈ fieldLabels, pyIn l sec = false) →
      stepSection sec cur = cur) := by
  refine ⟨?_, ?_, ?_, ?_, ?_, ?_, ?_, ?_, ?_, ?_, ?_⟩
  · intro sec cur h1
    simp [stepSection, h1]
  · intro sec cur h1 h2
    simp [stepSection, h1, h2]
  · intro sec cur h1 h2 h3
    simp [stepSection, h1, h2, h3]
  · intro sec cur h1 h2 h3 h4
    simp [stepSection, h1, h2, h3, h4]
  · intro sec cur h1 h2 h3 h4 h5
    simp [stepSection, h1, h2, h3, h4, h5]
  · intro sec cur h1 h2 h3 h4 h5 h6
    simp [stepSection, h1, h2, h3, h4, h5, h6]
  · intro sec cur h1 h2 h3 h4 h5 h6 h7
    simp [stepSection, h1, h2, h3, h4, h5, h6, h7]
  · intro sec cur h1 h2 h3 h4 h5 h6 h7 h8
    simp [stepSection, h1, h2, h3, h4, h5, h6, h7, h8]
  · intro sec cur h1 h2 h3 h4 h5 h6 h7 h8 h9
    simp [stepSection, h1, h2, h3, h4, h5, h6, h7, h8, h9]
  · intro sec cur h1 h2 h3 h4 h5 h6 h7 h8 h9 h10
    simp [stepSection, h1, h2, h3, h4, h5, h6, h7, h8, h9, h10]
  · intro sec cur h
    exact stepSection_of_no_labels sec cur h

/-- Witness for `c1_first_label_wins`: in a section containing the audience
and design-theme labels but not the niche label, the audience field — the
first of the chain to match — is the one extracted. -/
theorem c1_first_label_wins_witness :
    stepSection ("TARGET AUDIENCE: B\nDESIGN THEME: C").toList emptyOpp =
      { emptyOpp with audience := some (fieldLine targetAudienceLabel ("TARGET AUDIENCE: B\nDESIGN THEME: C").toList) } :=
  c1_first_label_wins.2.1 ("TARGET AUDIENCE: B\nDESIGN THEME: C").toList emptyOpp
    (by decide) (by decide)

/-- C2 counterexample: a single well-formed block carrying all ten labels in
order (one paragraph, no blank lines, exactly the format the prompt
requests) yields one record in which only the niche field is populated —
the other nine fields, demand score included, are absent, refuting the claim
that every one of the ten fields is populated. -/
theorem c2_counterexample :
    (extract_opportunities ("1. NICHE NAME: A\n2. TARGET AUDIENCE: B\n3. DESIGN THEME: C\n4. PRODUCTS: D\n5. DEMAND SCORE: 7/10\n6. COMPETITION: Low\n7. DESIGN EXAMPLES: E\n8. WHY IT WORKS: F\n9. FACEBOOK AD ANGLE: G\n10. ESTIMATED MONTHLY REVENUE: H")).length = 1 ∧
    (extract_opportunities ("1. NICHE NAME: A\n2. TARGET AUDIENCE: B\n3. DESIGN THEME: C\n4. PRODUCTS: D\n5. DEMAND SCORE: 7/10\n6. COMPETITION: Low\n7. DESIGN EXAMPLES: E\n8. WHY IT WORKS: F\n9. FACEBOOK AD ANGLE: G\n10. ESTIMATED MONTHLY REVENUE: H")).map Opp.audience = [none] ∧
    (extract_opportunities ("1. NICHE NAME: A\n2. TARGET AUDIENCE: B\n3. DESIGN THEME: C\n4. PRODUCTS: D\n5. DEMAND SCORE: 7/10\n6. COMPETITION: Low\n7. DESIGN EXAMPLES: E\n8. WHY IT WORKS: F\n9. FACEBOOK AD ANGLE: G\n10. ESTIMATED MONTHLY REVENUE: H")).map Opp.demand_score = [none] := by
  refine ⟨by decide, by decide, by decide⟩

/-- C2 (amended): an AnalysisText whose single well-formed block spreads the
ten labelled fields over ten blank-line-separated sections (and whose
sections after the first do not begin with an item-1 or item-2 ordinal)
yields exactly one OpportunityRecord with every one of the ten fields
populated with the text following its label, and the demand-score field
equal to the parsed leading integer of `"7/10"`. -/
theorem c2_ten_section_block :
    extract_opportunities ("NICHE NAME: A\n\nTARGET AUDIENCE: B\n\nDESIGN THEME: C\n\nPRODUCTS: D\n\nDEMAND SCORE: 7/10\n\nCOMPETITION: Low\n\nDESIGN EXAMPLES: E\n\nWHY IT WORKS: F\n\nFACEBOOK AD ANGLE: G\n\nESTIMATED MONTHLY REVENUE: H") =
      [{ niche := some "A".toList, audience := some "B".toList,
         design_theme := some "C".toList, products := some "D".toList,
         demand_score := some 7, competition := some "Low".toList,
         design_examples := some "E".toList, why_works := some "F".toList,
         ad_angle := some "G".toList, est_revenue := some "H".toList }] := by
  decide

/-- C3 counterexample: with a configured sheet but an empty record sequence
the sink performs no append at all — in particular no raw-analysis audit
append; and when the per-record append fails, the audit append is never
reached.  Both refute the claim that the audit row is appended regardless. -/
theorem c3_counterexample :
    ("S".toList.isEmpty = false) ∧
    save_to_sheets "S".toList [] "R".toList "T".toList true = [] ∧
    save_to_sheets "S".toList [{ emptyOpp with niche := some "N".toList }]
        "R".toList "T".toList false =
      [⟨oppsRange, [oppRow "T".toList { emptyOpp with niche := some "N".toList }]⟩] := by
  refine ⟨by decide, by decide, by decide⟩

/-- C3 (amended): the raw-analysis audit row is appended exactly when a
spreadsheet destination is configured, the record sequence is non-empty and
the per-record append succeeded; it is the second of the two append calls,
not an independent one. -/
theorem c3_audit_after_success (sheet_id : List Char) (opps : List Opp)
    (raw now : List Char) (h1 : sheet_id.isEmpty = false) (h2 : opps.isEmpty = false) :
    save_to_sheets sheet_id opps raw now true =
      [⟨oppsRange, opps.map (oppRow now)⟩,
       ⟨analysisRange, [[Cell.str now, Cell.str raw]]⟩] := by
  simp [save_to_sheets, h1, h2]

/-- Witness for `c3_audit_after_success` at concrete inputs. -/
theorem c3_audit_after_success_witness :
    save_to_sheets "S".toList [{ emptyOpp with niche := some "N".toList }]
        "R".toList "T".toList true =
      [⟨oppsRange, [{ emptyOpp with niche := some "N".toList }].map (oppRow "T".toList)⟩,
       ⟨analysisRange, [[Cell.str "T".toList, Cell.str "R".toList]]⟩] :=
  c3_audit_after_success "S".toList [{ emptyOpp with niche := some "N".toList }]
    "R".toList "T".toList (by decide) (by decide)

/-- C4: demand-score parsing takes the text after the label up to the line
break, strips it, takes the part before an optional `/`, and parses an
integer, defaulting to 5 on failure and never raising (the `Except`-threaded
parse always returns `ok`); concretely `"7/10" ⇒ 7`, `"N/A" ⇒ 5`,
`"10" ⇒ 10`, and the extraction chain stores exactly this parse when the
demand-score branch is reached. -/
theorem c4_demand_score_parsing :
    (∀ t : List Char, parseDemandE t = Except.ok (parseDemand t)) ∧
    parseDemand "7/10".toList = 7 ∧
    parseDemand "N/A".toList = 5 ∧
    parseDemand "10".toList = 10 ∧
    (∀ (sec : List Char) (cur : Opp),
      pyIn nicheNameLabel sec = false → pyIn targetAudienceLabel sec = false →
      pyIn designThemeLabel sec = false → pyIn productsLabel sec = false →
      pyIn demandScoreLabel sec = true →
      stepSection sec cur = { cur with demand_score := some (parseDemand (scoreText sec)) }) := by
  refine ⟨parseDemandE_ok, by decide, by decide, by decide, ?_⟩
  intro sec cur hn ha hd hp hs
  simp [stepSection, hn, ha, hd, hp, hs]

/-- Witness for `c4_demand_score_parsing` at the section
`"DEMAND SCORE: 7/10"`. -/
theorem c4_demand_score_parsing_witness :
    stepSection ("DEMAND SCORE: 7/10").toList emptyOpp =
      { emptyOpp with
        demand_score := some (parseDemand (scoreText ("DEMAND SCORE: 7/10").toList)) } :=
  c4_demand_score_parsing.2.2.2.2 ("DEMAND SCORE: 7/10").toList emptyOpp
    (by decide) (by decide) (by decide) (by decide) (by decide)

/-- C5: the extractor is total — the `Except`-threaded copy, in which the
`int(...)` exception is explicit, returns `ok` on every AnalysisText and
agrees with the pure extractor; moreover the output length equals the number
of detected record boundaries with a non-empty accumulator (final flush
included), for every input. -/
theorem c5_extractor_total :
    (∀ s : String, extract_opportunitiesE s = Except.ok (extract_opportunities s)) ∧
    (∀ s : String,
      (extract_opportunities s).length =
        countRecords (pySplit s.toList sectionSep) emptyOpp) := by
  constructor
  · intro s
    exact extractLoopE_ok (pySplit s.toList sectionSep) emptyOpp
  · intro s
    exact extractLoop_length (pySplit s.toList sectionSep) emptyOpp

/-- C6: the extractor is a pure, deterministic function of its input —
running it twice on the same AnalysisText yields identical record
sequences. -/
theorem c6_extractor_deterministic :
    ∀ s : String, extract_opportunities s = extract_opportunities s :=
  fun _ => rfl

/-- C7: an AnalysisText in which none of the ten recognised labels occurs
yields the empty record sequence, and more generally a record with no
recognised fields (an empty accumulator) is never emitted, whatever
boundary markers are present. -/
theorem c7_no_labels_no_records :
    (∀ s : String, (∀ l ∈ fieldLabels, pyIn l s.toList = false) →
      extract_opportunities s = []) ∧
    (∀ (s : String) (r : Opp), r ∈ extract_opportunities s → r.isEmptyDict = false) := by
  constructor
  · intro s h
    unfold extract_opportunities
    apply extractLoop_of_no_labels
    intro sec hsec l hl
    by_contra hcon
    have hsecin : pyIn l sec = true := by
      cases hval : pyIn l sec with
      | true => rfl
      | false => exact absurd hval hcon
    have := pyIn_of_pySplit l s.toList sectionSep sec hsec hsecin
    rw [h l hl] at this
    exact absurd this (by simp)
  · intro s r hr
    exact extractLoop_mem_nonempty (pySplit s.toList sectionSep) emptyOpp r hr

/-- Witness for `c7_no_labels_no_records`: an input with enumeration
boundary markers but no recognised labels is mapped to the empty sequence. -/
theorem c7_no_labels_no_records_witness :
    extract_opportunities "1. just prose here\n\n2. more prose" = [] :=
  c7_no_labels_no_records.1 "1. just prose here\n\n2. more prose" (by decide)

/-- C8: with an empty record sequence, or with no spreadsheet destination
configured, the sink performs no append calls at all. -/
theorem c8_sink_skips_empty :
    (∀ (sheet_id raw now : List Char) (ok : Bool),
      save_to_sheets sheet_id [] raw now ok = []) ∧
    (∀ (opps : List Opp) (raw now : List Char) (ok : Bool),
      save_to_sheets [] opps raw now ok = []) := by
  constructor
  · intro sheet_id raw now ok
    simp [save_to_sheets]
  · intro opps raw now ok
    simp [save_to_sheets]

/-- C9: fields accumulated from leading boundary-free sections are emitted
as their own leading record once the first boundary arrives (or at the end
of the input) — they are neither discarded nor merged into the
boundary-started record that follows. -/
theorem c9_leading_fields_own_record (s : String) (pre rest : List (List Char)) (r : Opp)
    (hsplit : pySplit s.toList sectionSep = pre ++ rest)
    (hpre : ∀ sec ∈ pre, isBoundary sec = false)
    (hfold : List.foldl (fun c sec => stepSection sec c) emptyOpp pre = r)
    (hne : r.isEmptyDict = false)
    (hrest : rest = [] ∨ ∃ b rest', rest = b :: rest' ∧ isBoundary b = true) :
    extract_opportunities s = r :: extractLoop rest emptyOpp := by
  unfold extract_opportunities
  rw [hsplit, extractLoop_append_of_no_boundary pre rest emptyOpp hpre, hfold]
  rcases hrest with rfl | ⟨b, rest', rfl, hb⟩
  · simp [extractLoop, hne, emptyOpp_isEmptyDict]
  · simp [extractLoop, hne, hb, emptyOpp_isEmptyDict]

/-- Witness for `c9_leading_fields_own_record`: an audience-only section
before the first `NICHE NAME:` boundary becomes its own leading record. -/
theorem c9_leading_fields_own_record_witness :
    extract_opportunities "TARGET AUDIENCE: dog owners\n\nNICHE NAME: X" =
      { emptyOpp with audience := some "dog owners".toList } ::
        extractLoop [("NICHE NAME: X").toList] emptyOpp :=
  c9_leading_fields_own_record "TARGET AUDIENCE: dog owners\n\nNICHE NAME: X"
    [("TARGET AUDIENCE: dog owners").toList] [("NICHE NAME: X").toList]
    { emptyOpp with audience := some "dog owners".toList }
    (by decide) (by decide) (by decide) (by decide)
    (Or.inr ⟨("NICHE NAME: X").toList, [], rfl, by decide⟩)

/-- C10 counterexample: the demand-score label occurs in two sections of the
same record (no boundary anywhere), yet the record keeps the earlier value 7:
the later section's occurrence (value 9) is shadowed by that section's
higher-priority audience label in the `elif` chain, refuting the claim that
the field always holds the value extracted from the later section. -/
theorem c10_counterexample :
    pyIn demandScoreLabel ("DEMAND SCORE: 7").toList = true ∧
    pyIn demandScoreLabel ("TARGET AUDIENCE: B\nDEMAND SCORE: 9").toList = true ∧
    extract_opportunities
        "COMPETITION: Low\n\nDEMAND SCORE: 7\n\nTARGET AUDIENCE: B\nDEMAND SCORE: 9" =
      [{ emptyOpp with
          audience := some "B".toList
          demand_score := some 7
          competition := some "Low".toList }] := by
  refine ⟨by decide, by decide, by decide⟩

/-- C10 (amended): within one record, a later section overwrites a field
exactly when the repeated label is the first, in the chain's priority order,
of the recognised labels occurring in that later section (the niche label
cannot recur inside one record, since a section containing it is a
boundary); the overwrite holds whatever the accumulator already contains —
one conjunct per non-boundary label — and boundary-free sections fold into
the one accumulator without ever creating an extra record. -/
theorem c10_first_priority_overwrites (cur : Opp) (secs : List (List Char))
    (sec2 : List Char) :
    (pyIn nicheNameLabel sec2 = false → pyIn targetAudienceLabel sec2 = true →
      (List.foldl (fun c sec => stepSection sec c) cur (secs ++ [sec2])).audience =
        some (fieldLine targetAudienceLabel sec2)) ∧
    (pyIn nicheNameLabel sec2 = false → pyIn targetAudienceLabel sec2 = false →
      pyIn designThemeLabel sec2 = true →
      (List.foldl (fun c sec => stepSection sec c) cur (secs ++ [sec2])).design_theme =
        some (fieldLine designThemeLabel sec2)) ∧
    (pyIn nicheNameLabel sec2 = false → pyIn targetAudienceLabel sec2 = false →
      pyIn designThemeLabel sec2 = false → pyIn productsLabel sec2 = true →
      (List.foldl (fun c sec => stepSection sec c) cur (secs ++ [sec2])).products =
        some (fieldLine productsLabel sec2)) ∧
    (pyIn nicheNameLabel sec2 = false → pyIn targetAudienceLabel sec2 = false →
      pyIn designThemeLabel sec2 = false → pyIn productsLabel sec2 = false →
      pyIn demandScoreLabel sec2 = true →
      (List.foldl (fun c sec => stepSection sec c) cur (secs ++ [sec2])).demand_score =
        some (parseDemand (scoreText sec2))) ∧
    (pyIn nicheNameLabel sec2 = false → pyIn targetAudienceLabel sec2 = false →
      pyIn designThemeLabel sec2 = false → pyIn productsLabel sec2 = false →
      pyIn demandScoreLabel sec2 = false → pyIn competitionLabel sec2 = true →
      (List.foldl (fun c sec => stepSection sec c) cur (secs ++ [sec2])).competition =
        some (fieldLine competitionLabel sec2)) ∧
    (pyIn nicheNameLabel sec2 = false → pyIn targetAudienceLabel sec2 = false →
      pyIn designThemeLabel sec2 = false → pyIn productsLabel sec2 = false →
      pyIn demandScoreLabel sec2 = false → pyIn competitionLabel sec2 = false →
      pyIn designExamplesLabel sec2 = true →
      (List.foldl (fun c sec => stepSection sec c) cur (secs ++ [sec2])).design_examples =
        some (spanField designExamplesLabel whyItWorksLabel sec2)) ∧
    (pyIn nicheNameLabel sec2 = false → pyIn targetAudienceLabel sec2 = false →
      pyIn designThemeLabel sec2 = false → pyIn productsLabel sec2 = false →
      pyIn demandScoreLabel sec2 = false → pyIn competitionLabel sec2 = false →
      pyIn designExamplesLabel sec2 = false → pyIn whyItWorksLabel sec2 = true →
      (List.foldl (fun c sec => stepSection sec c) cur (secs ++ [sec2])).why_works =
        some (spanField whyItWorksLabel adAngleLabel sec2)) ∧
    (pyIn nicheNameLabel sec2 = false → pyIn targetAudienceLabel sec2 = false →
      pyIn designThemeLabel sec2 = false → pyIn productsLabel sec2 = false →
      pyIn demandScoreLabel sec2 = false → pyIn competitionLabel sec2 = false →
      pyIn designExamplesLabel sec2 = false → pyIn whyItWorksLabel sec2 = false →
      pyIn adAngleLabel sec2 = true →
      (List.foldl (fun c sec => stepSection sec c) cur (secs ++ [sec2])).ad_angle =
        some (spanField adAngleLabel estRevenueLabel sec2)) ∧
    (pyIn nicheNameLabel sec2 = false → pyIn targetAudienceLabel sec2 = false →
      pyIn designThemeLabel sec2 = false → pyIn productsLabel sec2 = false →
      pyIn demandScoreLabel sec2 = false → pyIn competitionLabel sec2 = false →
      pyIn designExamplesLabel sec2 = false → pyIn whyItWorksLabel sec2 = false →
      pyIn adAngleLabel sec2 = false → pyIn estRevenueLabel sec2 = true →
      (List.foldl (fun c sec => stepSection sec c) cur (secs ++ [sec2])).est_revenue =
        some (trimL (afterLabel estRevenueLabel sec2))) ∧
    ((∀ m ∈ secs ++ [sec2], isBoundary m = false) →
      ∀ rest, extractLoop ((secs ++ [sec2]) ++ rest) cur =
        extractLoop rest (List.foldl (fun c sec => stepSection sec c) cur (secs ++ [sec2]))) := by
  refine ⟨?_, ?_, ?_, ?_, ?_, ?_, ?_, ?_, ?_, ?_⟩
  · intro h1 h2
    rw [List.foldl_append]
    simp [stepSection, h1, h2]
  · intro h1 h2 h3
    rw [List.foldl_append]
    simp [stepSection, h1, h2, h3]
  · intro h1 h2 h3 h4
    rw [List.foldl_append]
    simp [stepSection, h1, h2, h3, h4]
  · intro h1 h2 h3 h4 h5
    rw [List.foldl_append]
    simp [stepSection, h1, h2, h3, h4, h5]
  · intro h1 h2 h3 h4 h5 h6
    rw [List.foldl_append]
    simp [stepSection, h1, h2, h3, h4, h5, h6]
  · intro h1 h2 h3 h4 h5 h6 h7
    rw [List.foldl_append]
    simp [stepSection, h1, h2, h3, h4, h5, h6, h7]
  · intro h1 h2 h3 h4 h5 h6 h7 h8
    rw [List.foldl_append]
    simp [stepSection, h1, h2, h3, h4, h5, h6, h7, h8]
  · intro h1 h2 h3 h4 h5 h6 h7 h8 h9
    rw [List.foldl_append]
    simp [stepSection, h1, h2, h3, h4, h5, h6, h7, h8, h9]
  · intro h1 h2 h3 h4 h5 h6 h7 h8 h9 h10
    rw [List.foldl_append]
    simp [stepSection, h1, h2, h3, h4, h5, h6, h7, h8, h9, h10]
  · intro hb rest
    exact extractLoop_append_of_no_boundary (secs ++ [sec2]) rest cur hb

/-- Witness for `c10_first_priority_overwrites`: two demand-score sections in
one record; when no higher-priority label shadows the later section, the
later value 9 overwrites the earlier 7. -/
theorem c10_first_priority_overwrites_witness :
    (List.foldl (fun c sec => stepSection sec c) emptyOpp
        ([("DEMAND SCORE: 7").toList] ++ [("DEMAND SCORE: 9").toList])).demand_score =
      some (parseDemand (scoreText ("DEMAND SCORE: 9").toList)) :=
  (c10_first_priority_overwrites emptyOpp [("DEMAND SCORE: 7").toList]
    ("DEMAND SCORE: 9").toList).2.2.2.1
    (by decide) (by decide) (by decide) (by decide) (by decide)

end TrendFinder
